import Mathlib

/-!
Verification of the todo-store and time-utility core of the react-todo-master
application against its specification.

The TypeScript source under verification:

* `src/types/index.ts` — the `Todo` interface and the `useTodos` hook
  (`addTodo`, `toggleTodo`, `deleteTodo`, `reorderTodos`, the localStorage
  load effect and the guarded save effect);
* `src/App.tsx` / `src/utils/index.ts` — `calculateTimeRemaining` and
  `formatTimeRemaining`;
* `src/components/TodoInput.tsx` — the form submit handler that trims and
  validates the text before calling `addTodo`.

The embedding strategy:

* Machine dates (the JavaScript `Date`) are modelled by their millisecond
  timestamp as an `Int`; an *invalid* date (`NaN` time value) is `none` in
  `Option Int`.  A `Date` is valid iff its absolute timestamp is at most
  8 640 000 000 000 000 ms (ECMA-262 time-value range).
* `Date.prototype.toISOString` / date-string parsing are modelled concretely:
  `toIso` prints the extended ISO-8601 form `YYYY-MM-DDTHH:mm:ss.sssZ`
  (expanded `±YYYYYY` years outside 0–9999) and `parseIso` reads it back.
  The proleptic-Gregorian day↔date conversion uses the standard era
  decomposition (146097-day eras of 400 years); `daysFromCivil` is the usual
  closed-form day-number formula.
* JSON values are modelled by the inductive `JsVal`; the JSON *text* layer is
  abstracted: the storage boundary stores the parsed value (`JSON.parse` of a
  malformed string is an `Except.error`).  Date contents inside JSON remain
  fully concrete ISO strings, so the millisecond round-trip of `createdAt` and
  `dueDate` is proved, not assumed.
* React's hook lifecycle is embedded explicitly: the load effect runs first,
  then the save effect (skipped by the `isFirstRender` guard), and a
  `setTodos` from the load effect triggers a re-render whose save effect run
  is no longer guarded.
-/

/-! ## Platform model: proleptic Gregorian calendar (ECMA-262 `Date`) -/

/-- Day-of-era: days since the era start, in `[0, 146096]`; each 400-year era
spans 146097 days.  Day 0 of the epoch era is 0000-03-01; the epoch
1970-01-01 is day 719468 of the era scale. -/
def doeOf (z : Int) : Int := (z + 719468) % 146097

/-- Era index of a day number (floor division; `%`/`/` on `Int` are Euclidean,
which for the positive literal divisors used here is floor semantics). -/
def eraOf (z : Int) : Int := (z + 719468) / 146097

/-- Century within the era, `0..3`; the clamp accounts for the era-final leap
day, which falls beyond `3 * 36524`. -/
def centOf (doe : Int) : Int := min (doe / 36524) 3

/-- Day within the century, `0..36524`. -/
def dcentOf (doe : Int) : Int := doe - 36524 * centOf doe

/-- Four-year block within the century, `0..24`. -/
def quadOf (doe : Int) : Int := min (dcentOf doe / 1461) 24

/-- Day within the four-year block, `0..1460`. -/
def dquadOf (doe : Int) : Int := dcentOf doe - 1461 * quadOf doe

/-- Year within the four-year block, `0..3`. -/
def yqOf (doe : Int) : Int := min (dquadOf doe / 365) 3

/-- Day of the March-based year, `0..365` (`0` = March 1). -/
def doyOf (doe : Int) : Int := dquadOf doe - 365 * yqOf doe

/-- Year of the era, `0..399`. -/
def yoeOf (doe : Int) : Int := 100 * centOf doe + 4 * quadOf doe + yqOf doe

/-- March-based month index, `0..11` (`0` = March, `11` = February). -/
def mpOf (doy : Int) : Int := (5 * doy + 2) / 153

/-- Convert a day number (days since 1970-01-01) to a civil
`(year, month, day)` date in the proleptic Gregorian calendar. -/
def civilFromDays (z : Int) : Int × Int × Int :=
  let doe := doeOf z
  let doy := doyOf doe
  let mp := mpOf doy
  let d := doy - (153 * mp + 2) / 5 + 1
  let m := mp + (if mp < 10 then 3 else -9)
  (eraOf z * 400 + yoeOf doe + (if m ≤ 2 then 1 else 0), m, d)

/-- Convert a civil `(year, month, day)` date to its day number (days since
1970-01-01); the standard closed-form formula over 400-year eras. -/
def daysFromCivil (y m d : Int) : Int :=
  let y2 := if m ≤ 2 then y - 1 else y
  let era := y2 / 400
  let yoe := y2 - era * 400
  let doy := (153 * (m + (if 2 < m then -3 else 9)) + 2) / 5 + d - 1
  let doe := yoe * 365 + yoe / 4 - yoe / 100 + doy
  era * 146097 + doe - 719468

/-! ## Platform model: ISO-8601 date-time strings -/

/-- Decimal digit character for `n % 10`. -/
def digitChar (n : Nat) : Char := Char.ofNat (48 + n % 10)

/-- Numeric value of a decimal digit character. -/
def digitVal (c : Char) : Nat := c.toNat - 48

/-- Whether a character is a decimal digit `0`–`9`. -/
def isDigitChar (c : Char) : Bool := 48 ≤ c.toNat && c.toNat ≤ 57

/-- Zero-padded fixed-width decimal form of `n < 10 ^ w`, most significant
digit first. -/
def padDigits : Nat → Nat → List Char
  | 0, _ => []
  | w + 1, n => digitChar (n / 10 ^ w) :: padDigits w (n % 10 ^ w)

/-- Year field of `toISOString`: plain four digits for years 0–9999, expanded
signed six-digit form (`+YYYYYY` / `-YYYYYY`) otherwise (ECMA-262
extended-year format). -/
def yearChars (y : Int) : List Char :=
  if 0 ≤ y ∧ y ≤ 9999 then padDigits 4 y.toNat
  else if y < 0 then '-' :: padDigits 6 (-y).toNat
  else '+' :: padDigits 6 y.toNat

/-- Character list of the ISO string `YYYY-MM-DDTHH:mm:ss.sssZ` of a valid
time value `t` (milliseconds since the epoch, UTC). -/
def isoChars (t : Int) : List Char :=
  let z := t / 86400000
  let q := (t % 86400000).toNat
  let c := civilFromDays z
  yearChars c.1 ++
    ('-' :: (padDigits 2 c.2.1.toNat ++
    ('-' :: (padDigits 2 c.2.2.toNat ++
    ('T' :: (padDigits 2 (q / 3600000) ++
    (':' :: (padDigits 2 (q % 3600000 / 60000) ++
    (':' :: (padDigits 2 (q % 60000 / 1000) ++
    ('.' :: (padDigits 3 (q % 1000) ++ ['Z']))))))))))))

/-- The ISO-8601 string produced by `Date.prototype.toISOString` for time
value `t`. -/
def toIso (t : Int) : String := String.mk (isoChars t)

/-- Parse exactly `n` decimal digits, returning the value and the rest. -/
def parseDigits : Nat → List Char → Option (Nat × List Char)
  | 0, cs => some (0, cs)
  | n + 1, c :: cs =>
    if isDigitChar c then
      (parseDigits n cs).bind fun (v, r) => some (digitVal c * 10 ^ n + v, r)
    else none
  | _ + 1, [] => none

/-- Expect a literal character at the head of the input. -/
def expectChar (c : Char) : List Char → Option (List Char)
  | c2 :: cs => if c2 = c then some cs else none
  | [] => none

/-- Parse the year field: four digits, or a sign followed by six digits. -/
def parseYear : List Char → Option (Int × List Char)
  | [] => none
  | c :: cs =>
    if c = '-' then (parseDigits 6 cs).bind fun (v, r) => some (-(v : Int), r)
    else if c = '+' then (parseDigits 6 cs).bind fun (v, r) => some ((v : Int), r)
    else (parseDigits 4 (c :: cs)).bind fun (v, r) => some ((v : Int), r)

/-- Parse a separator character followed by a fixed-width decimal field. -/
def parseField (w : Nat) (sep : Char) (cs : List Char) : Option (Nat × List Char) := do
  let r1 ← expectChar sep cs
  parseDigits w r1

/-- Parse the date part `YYYY-MM-DD` (with possibly expanded year). -/
def parseYMD (cs : List Char) : Option (Int × Nat × Nat × List Char) := do
  let (y, r1) ← parseYear cs
  let (m, r2) ← parseField 2 '-' r1
  let (d, r3) ← parseField 2 '-' r2
  some (y, m, d, r3)

/-- Parse the time part `THH:mm:ss.sssZ`. -/
def parseHMS (cs : List Char) : Option (Nat × Nat × Nat × Nat × List Char) := do
  let (hh, r1) ← parseField 2 'T' cs
  let (mm, r2) ← parseField 2 ':' r1
  let (ss, r3) ← parseField 2 ':' r2
  let (ms, r4) ← parseField 3 '.' r3
  let r5 ← expectChar 'Z' r4
  some (hh, mm, ss, ms, r5)

/-- Parse `YYYY-MM-DDTHH:mm:ss.sssZ` (the format printed by `isoChars`) into
a time value, validating field ranges and the ECMA-262 time-value range. -/
def parseIsoChars (cs : List Char) : Option Int := do
  let (y, m, d, r1) ← parseYMD cs
  let (hh, mm, ss, ms, r2) ← parseHMS r1
  if r2 = [] ∧ 1 ≤ m ∧ m ≤ 12 ∧ 1 ≤ d ∧ d ≤ 31 ∧ hh ≤ 23 ∧ mm ≤ 59 ∧ ss ≤ 59 then
    let t := daysFromCivil y m d * 86400000 +
      (hh : Int) * 3600000 + (mm : Int) * 60000 + (ss : Int) * 1000 + (ms : Int)
    if t.natAbs ≤ 8640000000000000 then some t else none
  else none

/-- Date-string parsing of the ISO format (the inverse boundary used by
`new Date(isoString)`). -/
def parseIso (s : String) : Option Int := parseIsoChars s.data

/-! ## Platform model: JavaScript values at the storage boundary

JSON text is abstracted at the value level: the storage holds the result of
`JSON.parse` on the stored string — either a `JsVal` or a thrown
`SyntaxError`.  Dates inside JSON stay fully concrete ISO strings. -/

/-- JavaScript runtime values reachable from parsed JSON plus `undefined`.
Numbers are modelled as integers (every number this application stores is an
integer timestamp or flag). -/
inductive JsVal where
  | undefined : JsVal
  | null : JsVal
  | bool : Bool → JsVal
  | num : Int → JsVal
  | str : String → JsVal
  | arr : List JsVal → JsVal
  | obj : List (String × JsVal) → JsVal

/-- Exceptions thrown at the storage boundary: `SyntaxError` from
`JSON.parse`, `TypeError` from property access on `null`/`undefined` or from
calling `.map` on a non-array. -/
inductive JsError where
  | syntaxError : JsError
  | typeError : JsError
deriving DecidableEq

/-- JavaScript truthiness of a value (the `todo.dueDate ?` test). -/
def jsTruthy : JsVal → Bool
  | .undefined => false
  | .null => false
  | .bool b => b
  | .num n => n != 0
  | .str s => s != ""
  | .arr _ => true
  | .obj _ => true

/-- Property access `v[k]`: throws `TypeError` on `null`/`undefined`; an
absent property reads as `undefined`.  (Boxed primitives have neither of the
two fixed keys `createdAt`/`dueDate` the load path reads, so they read as
`undefined`.) -/
def jsGet : JsVal → String → Except JsError JsVal
  | .undefined, _ => .error .typeError
  | .null, _ => .error .typeError
  | .obj fields, k => .ok (((fields.lookup k).getD .undefined))
  | _, _ => .ok .undefined

/-- Object spread `{...v}`: own enumerable properties.  Objects contribute
their fields, strings their indexed characters, other primitives nothing. -/
def jsSpread : JsVal → List (String × JsVal)
  | .obj fields => fields
  | .str s => s.data.enum.map fun p => (toString p.1, JsVal.str (String.mk [p.2]))
  | _ => []

/-- The `new Date(v)` constructor, as the `Option Int` time value (`none` =
Invalid Date).  Strings go through ISO date-string parsing; `null` and
booleans coerce to `0`/`1`; `undefined` is Invalid; object/array arguments
(which this application never stores in date fields) are modelled as
Invalid. -/
def jsNewDate : JsVal → Option Int
  | .num n => if n.natAbs ≤ 8640000000000000 then some n else none
  | .str s => parseIso s
  | .null => some 0
  | .bool b => some (if b then 1 else 0)
  | .undefined => none
  | .arr _ => none
  | .obj _ => none

/-! ## Source model: the `Todo` record and the `useTodos` store
(`src/types/index.ts`) -/

/-- The `Todo` interface.  `createdAt` is a `Date` timestamp; `dueDate` and
`category` are the optional fields. -/
structure Todo where
  id : String
  text : String
  completed : Bool
  createdAt : Int
  dueDate : Option Int
  category : Option String
deriving DecidableEq

/-- An in-memory record produced by the load path
`(todo) => ({...todo, createdAt: new Date(todo.createdAt),
dueDate: todo.dueDate ? new Date(todo.dueDate) : undefined})`.
`props` holds the spread properties other than the two overwritten date
fields; `createdAt` is a `Date` (possibly invalid); `dueDate` is `undefined`
(`none`) or a `Date` (`some`). -/
structure LoadedTodo where
  props : List (String × JsVal)
  createdAt : Option Int
  dueDate : Option (Option Int)

/-- The per-element conversion the load effect maps over the parsed array. -/
def mapStoredTodo (v : JsVal) : Except JsError LoadedTodo := do
  let c ← jsGet v "createdAt"
  let du ← jsGet v "dueDate"
  .ok { props := (jsSpread v).filter fun kv => kv.1 != "createdAt" && kv.1 != "dueDate",
        createdAt := jsNewDate c,
        dueDate := if jsTruthy du then some (jsNewDate du) else none }

/-- The `Array.prototype.map` conversion over the parsed array: left to right, aborted by
the first thrown exception. -/
def mapStoredTodos : List JsVal → Except JsError (List LoadedTodo)
  | [] => .ok []
  | v :: rest => do
    let t ← mapStoredTodo v
    let ts ← mapStoredTodos rest
    .ok (t :: ts)

/-- Outcome of the load effect: the resulting collection, whether `setTodos`
was invoked, and whether the error was reported to `console.error` (the
observability sink). -/
structure LoadResult where
  todos : List LoadedTodo
  updated : Bool
  reported : Bool

/-- The load effect of `useTodos`.  `stored` is `none` when
`localStorage.getItem` returned `null`; otherwise it carries the result of
`JSON.parse` on the stored string.  The whole body sits in `try/catch`:
a parse failure, a `.map` call on a non-array, or a property access throwing
inside the map is caught, logged, and leaves the state `[]`. -/
def loadEffect (stored : Option (Except JsError JsVal)) : LoadResult :=
  match stored with
  | none => { todos := [], updated := false, reported := false }
  | some (.error _) => { todos := [], updated := false, reported := true }
  | some (.ok v) =>
    match v with
    | .arr elems =>
      match mapStoredTodos elems with
      | .ok l => { todos := l, updated := true, reported := false }
      | .error _ => { todos := [], updated := false, reported := true }
    | _ => { todos := [], updated := false, reported := true }

/-- Observable outcome of mounting the `useTodos` hook: final state, the
collections written to the storage boundary during mount, and whether an
error was reported. -/
structure MountResult where
  todos : List LoadedTodo
  writes : List (List LoadedTodo)
  reported : Bool

/-- Mount-time behaviour of `useTodos`, following React's effect sequencing:

1. the load effect runs and possibly calls `setTodos`;
2. the save effect runs for the first render; `isFirstRender` is `true`,
   so it only clears the guard flags and writes nothing;
3. if `setTodos` was called, React re-renders with the loaded array (a fresh
   array object, so the `[todos]` dependency changed) and the save effect
   runs again — now unguarded, so it serializes the just-loaded collection
   and writes it back to the storage boundary. -/
def runMount (stored : Option (Except JsError JsVal)) : MountResult :=
  let r := loadEffect stored
  { todos := r.todos,
    writes := if r.updated then [r.todos] else [],
    reported := r.reported }

/-- The `addTodo` mutation.  The `generateId()` call and `new Date()` are
external collaborators (spec §6), passed as the `id` and `now` arguments.
The body builds the new record with `completed: false` and prepends it; there
is no validation of `text`. -/
def addTodo (id : String) (now : Int) (text : String) (dueDate : Option Int)
    (category : Option String) (prev : List Todo) : List Todo :=
  { id := id, text := text, completed := false, createdAt := now,
    dueDate := dueDate, category := category } :: prev

/-- The `toggleTodo` mutation: map over the collection flipping `completed`
on the record with matching id. -/
def toggleTodo (id : String) (prev : List Todo) : List Todo :=
  prev.map fun todo =>
    if todo.id == id then { todo with completed := !todo.completed } else todo

/-- The `deleteTodo` mutation: keep the records whose id differs. -/
def deleteTodo (id : String) (prev : List Todo) : List Todo :=
  prev.filter fun todo => todo.id != id

/-- JavaScript `Array.prototype.splice(start, 1)` on a copy: clamp `start` (negative
indices count from the end), remove at most one element there, and return
the new array together with the removed element (`none` when nothing was
removed — the destructured `removed` is then `undefined`). -/
def jsSpliceRemoveOne (arr : List α) (start : Int) : List α × Option α :=
  let len : Int := arr.length
  let s : Nat := (if start < 0 then max (len + start) 0 else min start len).toNat
  (arr.take s ++ arr.drop (s + 1), (arr.drop s).head?)

/-- JavaScript `Array.prototype.splice(start, 0, item)`: clamp `start` the same way and
insert `item` there. -/
def jsSpliceInsert (arr : List α) (start : Int) (item : α) : List α :=
  let len : Int := arr.length
  let s : Nat := (if start < 0 then max (len + start) 0 else min start len).toNat
  arr.take s ++ item :: arr.drop s

/-- The `reorderTodos` mutation:

`const result = Array.from(prev); const [removed] = result.splice(start, 1);
result.splice(end, 0, removed); return result;`

The element type is lifted to `Option Todo` because `removed` is `undefined`
when `startIndex` removes nothing, and that `undefined` is then inserted into
the array. -/
def reorderTodos (prev : List Todo) (startIndex endIndex : Int) : List (Option Todo) :=
  let result := prev.map some
  let step := jsSpliceRemoveOne result startIndex
  jsSpliceInsert step.1 endIndex (step.2.getD none)

/-! ## Source model: the `TodoInput` submit handler
(`src/components/TodoInput.tsx`) -/

/-- JavaScript `String.prototype.trim`: strip leading and trailing
whitespace.  Implemented structurally on the character list (Lean's own
`String.trim` is defined by well-founded recursion on byte positions and
does not reduce). -/
def jsTrim (s : String) : String :=
  String.mk (((s.data.dropWhile Char.isWhitespace).reverse.dropWhile
    Char.isWhitespace).reverse)

/-- JavaScript `parseInt(s, 10)`: skip leading whitespace, optional sign, then the
longest digit prefix; `none` is `NaN`. -/
def parseIntJs (s : String) : Option Int :=
  let cs := s.data.dropWhile Char.isWhitespace
  let core : Bool × List Char :=
    match cs with
    | '-' :: rest => (true, rest)
    | '+' :: rest => (false, rest)
    | rest => (false, rest)
  let ds := core.2.takeWhile isDigitChar
  if ds.isEmpty then none
  else
    let v : Int := ds.foldl (fun a c => 10 * a + (digitVal c : Int)) 0
    some (if core.1 then -v else v)

/-- The `new Date(year, monthIndex, day)` constructor (local time): the two-digit-year quirk
maps 0–99 to 1900–1999; out-of-range month and day roll over arithmetically.
`off` is the local-time offset in milliseconds (`localTime = utc + off`). -/
def jsDateLocalYMD (off y mIdx d : Int) : Option Int :=
  let yy := if 0 ≤ y ∧ y ≤ 99 then y + 1900 else y
  let ny := yy + mIdx / 12
  let nm := mIdx % 12 + 1
  let t := daysFromCivil ny nm d * 86400000 - off
  if t.natAbs ≤ 8640000000000000 then some t else none

/-- The `handleSubmit` handler of `TodoInput`: trims the text and, only when
the trimmed text is non-empty, calls `onAdd` with the trimmed text, the
parsed due date (`dueDate.split('-')` then `new Date(year, month-1, day)`;
`some none` is a call with an Invalid Date) and the trimmed category
(`undefined` when empty).  `none` means `onAdd` is not called. -/
def handleSubmit (off : Int) (text dueDate category : String) :
    Option (String × Option (Option Int) × Option String) :=
  let trimmedText := jsTrim text
  if trimmedText ≠ "" then
    let parsedDueDate : Option (Option Int) :=
      if dueDate ≠ "" then
        let parts := (dueDate.splitOn "-").map parseIntJs
        match parts[0]?.join, parts[1]?.join, parts[2]?.join with
        | some y, some m, some d => some (jsDateLocalYMD off y (m - 1) d)
        | _, _, _ => some none
      else none
    let trimmedCategory := if jsTrim category ≠ "" then some (jsTrim category) else none
    some (trimmedText, parsedDueDate, trimmedCategory)
  else none

/-! ## Source model: the save path (`JSON.stringify(todos)`) -/

/-- JSON serialization of a `Date` property: `Date.prototype.toJSON` produces
the ISO string for a valid date and `null` for an invalid one. -/
def dateToJson (t : Int) : JsVal :=
  if t.natAbs ≤ 8640000000000000 then .str (toIso t) else .null

/-- JSON value of one `Todo` record as `JSON.stringify` sees it: properties
in construction order; properties whose value is `undefined` are omitted. -/
def serializeTodo (t : Todo) : JsVal :=
  .obj ([("id", .str t.id), ("text", .str t.text), ("completed", .bool t.completed),
         ("createdAt", dateToJson t.createdAt)]
    ++ (match t.dueDate with | some d => [("dueDate", dateToJson d)] | none => [])
    ++ (match t.category with | some c => [("category", JsVal.str c)] | none => []))

/-- JSON value of the whole collection as written by the save effect. -/
def serializeTodos (l : List Todo) : JsVal := .arr (l.map serializeTodo)

/-- The in-memory record the load path reconstructs from a serialized `Todo`:
dates are `Date` values again, every other property survives in the spread. -/
def loadedOfTodo (t : Todo) : LoadedTodo :=
  { props := [("id", JsVal.str t.id), ("text", JsVal.str t.text),
              ("completed", JsVal.bool t.completed)]
      ++ (match t.category with | some c => [("category", JsVal.str c)] | none => []),
    createdAt := some t.createdAt,
    dueDate := t.dueDate.map some }

/-! ## Source model: the time utility (`src/utils/index.ts`) -/

/-- The `TimeRemaining` interface.  All numeric fields are the non-negative
integers produced by `Math.floor` on the absolute difference. -/
structure TimeRemaining where
  days : Nat
  hours : Nat
  minutes : Nat
  isOverdue : Bool
  totalMinutes : Nat
deriving DecidableEq, Repr

/-- The call `dueDateEndOfDay.setHours(23, 59, 59, 999)`: replace the local
time-of-day of `t` by 23:59:59.999 within the same local calendar day.
`off` is the local-time offset in milliseconds (`localTime = utc + off`). -/
def setHoursEndOfDay (off t : Int) : Int :=
  let localTime := t + off
  let dayStart := localTime - localTime % 86400000
  dayStart + 86399999 - off

/-- The function `calculateTimeRemaining(dueDate)` with the ambient current time `now`
passed explicitly.  Mirrors the source: end-of-day deadline, signed
difference, overdue flag, then `Math.floor` decompositions of the absolute
difference. -/
def calculateTimeRemaining (off dueDate now : Int) : TimeRemaining :=
  let dueDateEndOfDay := setHoursEndOfDay off dueDate
  let diffMs := dueDateEndOfDay - now
  let isOverdue := diffMs < 0
  let absDiffMs := diffMs.natAbs
  let totalMinutes := absDiffMs / (1000 * 60)
  let days := totalMinutes / (24 * 60)
  let hours := totalMinutes % (24 * 60) / 60
  let minutes := totalMinutes % 60
  { days := days, hours := hours, minutes := minutes,
    isOverdue := isOverdue, totalMinutes := totalMinutes }

/-- The function `formatTimeRemaining`: three tiers, most significant first, on each side
of the overdue flag. -/
def formatTimeRemaining (tr : TimeRemaining) : String :=
  if tr.isOverdue then
    if tr.days > 0 then toString tr.days ++ "d overdue"
    else if tr.hours > 0 then toString tr.hours ++ "h " ++ toString tr.minutes ++ "m overdue"
    else toString tr.minutes ++ "m overdue"
  else
    if tr.days > 0 then toString tr.days ++ "d " ++ toString tr.hours ++ "h remaining"
    else if tr.hours > 0 then toString tr.hours ++ "h " ++ toString tr.minutes ++ "m remaining"
    else toString tr.minutes ++ "m remaining"

/-- A sample record used in concrete counterexamples. -/
def sampleTodo : Todo :=
  { id := "a1", text := "buy milk", completed := false, createdAt := 0,
    dueDate := none, category := none }

/-- A parsed storage value holding one serialized record, used as the
concrete failing input of the mount-time write-back. -/
def storedSampleJson : JsVal :=
  .arr [.obj [("id", .str "1"), ("text", .str "hello"), ("completed", .bool false),
              ("createdAt", .str "2025-01-01T12:00:00.000Z")]]

/-- The in-memory record the load path builds from `storedSampleJson`. -/
def loadedSample : LoadedTodo :=
  { props := [("id", .str "1"), ("text", .str "hello"), ("completed", .bool false)],
    createdAt := some 1735732800000,
    dueDate := none }

/-! ## Calendar lemmas -/

theorem div4_helper (c q f : Int) (_hc : 0 ≤ c) (_hc3 : c ≤ 3) (_hq : 0 ≤ q) (_hq24 : q ≤ 24)
    (hf : 0 ≤ f) (hf3 : f ≤ 3) : (100 * c + 4 * q + f) / 4 = 25 * c + q := by omega

theorem div100_helper (c q f : Int) (_hc : 0 ≤ c) (_hc3 : c ≤ 3) (hq : 0 ≤ q) (hq24 : q ≤ 24)
    (hf : 0 ≤ f) (hf3 : f ≤ 3) : (100 * c + 4 * q + f) / 100 = c := by omega

theorem decomp_spec (doe : Int) (h0 : 0 ≤ doe) (h1 : doe ≤ 146096) :
    0 ≤ centOf doe ∧ centOf doe ≤ 3 ∧ 0 ≤ quadOf doe ∧ quadOf doe ≤ 24 ∧
    0 ≤ yqOf doe ∧ yqOf doe ≤ 3 ∧ 0 ≤ doyOf doe ∧ doyOf doe ≤ 365 ∧
    doe = 36524 * centOf doe + 1461 * quadOf doe + 365 * yqOf doe + doyOf doe := by
  simp only [doyOf, yqOf, dquadOf, quadOf, dcentOf, centOf]
  omega

theorem yoe_doy_spec (doe : Int) (h0 : 0 ≤ doe) (h1 : doe ≤ 146096) :
    0 ≤ yoeOf doe ∧ yoeOf doe ≤ 399 ∧ 0 ≤ doyOf doe ∧ doyOf doe ≤ 365 ∧
    365 * yoeOf doe + yoeOf doe / 4 - yoeOf doe / 100 + doyOf doe = doe := by
  obtain ⟨hc0, hc3, hq0, hq24, hy0, hy3, hd0, hd365, hid⟩ := decomp_spec doe h0 h1
  have h4 := div4_helper _ _ _ hc0 hc3 hq0 hq24 hy0 hy3
  have h100 := div100_helper _ _ _ hc0 hc3 hq0 hq24 hy0 hy3
  simp only [yoeOf] at *
  omega

theorem month_spec (doy : Int) (h0 : 0 ≤ doy) (h1 : doy ≤ 365) :
    0 ≤ mpOf doy ∧ mpOf doy ≤ 11 ∧
    1 ≤ doy - (153 * mpOf doy + 2) / 5 + 1 ∧ doy - (153 * mpOf doy + 2) / 5 + 1 ≤ 31 ∧
    (153 * mpOf doy + 2) / 5 + (doy - (153 * mpOf doy + 2) / 5 + 1) - 1 = doy := by
  simp only [mpOf]
  omega

theorem doe_bounds (z : Int) : 0 ≤ doeOf z ∧ doeOf z ≤ 146096 := by
  constructor
  · exact Int.emod_nonneg _ (by norm_num)
  · have := Int.emod_lt_of_pos (z + 719468) (b := 146097) (by norm_num)
    simp only [doeOf]
    omega

theorem era_div_helper (era w : Int) (h1 : 0 ≤ w) (h2 : w ≤ 399) :
    (era * 400 + w) / 400 = era := by
  rw [show era * 400 + w = w + 400 * era by ring,
      Int.add_mul_ediv_left _ _ (by norm_num : (400 : Int) ≠ 0),
      Int.ediv_eq_zero_of_lt h1 (by omega)]
  ring

theorem daysFromCivil_recompose (era yoe mp dd : Int)
    (hy0 : 0 ≤ yoe) (hy399 : yoe ≤ 399) (hmp0 : 0 ≤ mp) (hmp11 : mp ≤ 11) :
    daysFromCivil
        (era * 400 + yoe + (if mp + (if mp < 10 then 3 else (-9 : Int)) ≤ 2 then 1 else 0))
        (mp + (if mp < 10 then 3 else -9)) dd
      = era * 146097 + (yoe * 365 + yoe / 4 - yoe / 100 + ((153 * mp + 2) / 5 + dd - 1))
          - 719468 := by
  have hera := era_div_helper era yoe hy0 hy399
  rcases lt_or_le mp 10 with h | h
  · have hm2 : ¬ (mp + 3 ≤ 2) := by omega
    have hm2' : (2 : Int) < mp + 3 := by omega
    simp only [daysFromCivil, if_pos h, if_neg hm2, if_pos hm2', add_zero]
    rw [hera]
    have harg : (153 * (mp + 3 + -3) + 2) / 5 = (153 * mp + 2) / 5 := by
      congr 1
      ring
    rw [harg]
    ring_nf
  · have hm2 : mp + -9 ≤ 2 := by omega
    have hm2' : ¬ ((2 : Int) < mp + -9) := by omega
    simp only [daysFromCivil, if_neg (by omega : ¬ (mp < 10)), if_pos hm2, if_neg hm2',
      add_sub_cancel_right]
    rw [hera]
    have harg : (153 * (mp + -9 + 9) + 2) / 5 = (153 * mp + 2) / 5 := by
      congr 1
      ring
    rw [harg]
    ring_nf

theorem civil_roundtrip (z : Int) :
    daysFromCivil (civilFromDays z).1 (civilFromDays z).2.1 (civilFromDays z).2.2 = z := by
  obtain ⟨hdoe0, hdoe1⟩ := doe_bounds z
  have hz : z = eraOf z * 146097 + doeOf z - 719468 := by
    simp only [eraOf, doeOf]; omega
  obtain ⟨hy0, hy399, hd0, hd365, hyid⟩ := yoe_doy_spec _ hdoe0 hdoe1
  obtain ⟨hmp0, hmp11, hdd1, hdd31, hmid⟩ := month_spec _ hd0 hd365
  simp only [civilFromDays]
  rw [daysFromCivil_recompose _ _ _ _ hy0 hy399 hmp0 hmp11]
  omega

theorem civil_month_day_bounds (z : Int) :
    1 ≤ (civilFromDays z).2.1 ∧ (civilFromDays z).2.1 ≤ 12 ∧
    1 ≤ (civilFromDays z).2.2 ∧ (civilFromDays z).2.2 ≤ 31 := by
  obtain ⟨hdoe0, hdoe1⟩ := doe_bounds z
  obtain ⟨hy0, hy399, hd0, hd365, hyid⟩ := yoe_doy_spec _ hdoe0 hdoe1
  obtain ⟨hmp0, hmp11, hdd1, hdd31, hmid⟩ := month_spec _ hd0 hd365
  simp only [civilFromDays]
  split_ifs <;> constructor <;> omega

theorem civil_year_bounds (z : Int) (h : z.natAbs ≤ 100000000) :
    ((civilFromDays z).1).natAbs ≤ 400000 := by
  obtain ⟨hdoe0, hdoe1⟩ := doe_bounds z
  obtain ⟨hy0, hy399, hd0, hd365, hyid⟩ := yoe_doy_spec _ hdoe0 hdoe1
  have hera : eraOf z = (z + 719468) / 146097 := rfl
  have hdoe : doeOf z = (z + 719468) % 146097 := rfl
  simp only [civilFromDays]
  split_ifs <;> omega

/-! ## Digit printing and parsing lemmas -/

theorem digitChar_basic (m : Nat) (h : m < 10) :
    isDigitChar (Char.ofNat (48 + m)) = true ∧ digitVal (Char.ofNat (48 + m)) = m ∧
    Char.ofNat (48 + m) ≠ '-' ∧ Char.ofNat (48 + m) ≠ '+' := by
  interval_cases m <;> exact ⟨by decide, by decide, by decide, by decide⟩

theorem digitChar_spec (n : Nat) :
    isDigitChar (digitChar n) = true ∧ digitVal (digitChar n) = n % 10 ∧
    digitChar n ≠ '-' ∧ digitChar n ≠ '+' := by
  have h := Nat.mod_lt n (y := 10) (by norm_num)
  simpa [digitChar] using digitChar_basic (n % 10) h

theorem parseDigits_padDigits (w : Nat) : ∀ n : Nat, n < 10 ^ w → ∀ r : List Char,
    parseDigits w (padDigits w n ++ r) = some (n, r) := by
  induction w with
  | zero =>
    intro n h r
    interval_cases n
    rfl
  | succ w ih =>
    intro n h r
    have hd := digitChar_spec (n / 10 ^ w)
    have hmod : n % 10 ^ w < 10 ^ w := Nat.mod_lt _ (by positivity)
    have hdivlt : n / 10 ^ w < 10 := by
      have hp : 10 ^ (w + 1) = 10 ^ w * 10 := by ring
      exact Nat.div_lt_of_lt_mul (by omega)
    simp only [padDigits, List.cons_append, parseDigits, hd.1, if_true, List.append_eq]
    rw [ih (n % 10 ^ w) hmod r]
    simp only [Option.some_bind]
    have hval : digitVal (digitChar (n / 10 ^ w)) * 10 ^ w + n % 10 ^ w = n := by
      rw [hd.2.1, Nat.mod_eq_of_lt hdivlt, Nat.mul_comm, Nat.div_add_mod]
    rw [hval]

theorem parseYear_yearChars (y : Int) (h : y.natAbs ≤ 999999) (r : List Char) :
    parseYear (yearChars y ++ r) = some (y, r) := by
  unfold yearChars
  split_ifs with h1 h2
  · obtain ⟨h1a, h1b⟩ := h1
    have hn : y.toNat < 10 ^ 4 := by norm_num; omega
    have heq : padDigits 4 y.toNat ++ r
        = digitChar (y.toNat / 10 ^ 3) :: (padDigits 3 (y.toNat % 10 ^ 3) ++ r) := by
      simp [padDigits]
    have hd := digitChar_spec (y.toNat / 10 ^ 3)
    rw [heq]
    simp only [parseYear, if_neg hd.2.2.1, if_neg hd.2.2.2]
    rw [← heq, parseDigits_padDigits 4 y.toNat hn r]
    simp only [Option.some_bind, Int.toNat_of_nonneg h1a]
  · have hn : (-y).toNat < 10 ^ 6 := by norm_num; omega
    simp only [List.cons_append, parseYear, if_pos rfl]
    rw [parseDigits_padDigits 6 (-y).toNat hn r]
    simp only [Option.some_bind, Int.toNat_of_nonneg (by omega : (0 : Int) ≤ -y)]
    norm_num
  · have hn : y.toNat < 10 ^ 6 := by norm_num; omega
    simp only [List.cons_append, parseYear, if_neg (by decide : ¬ ('+' = '-')), if_pos rfl]
    rw [parseDigits_padDigits 6 y.toNat hn r]
    simp only [Option.some_bind, Int.toNat_of_nonneg (by omega : (0 : Int) ≤ y), if_true]

theorem parseField_pad (w n : Nat) (sep : Char) (r : List Char) (h : n < 10 ^ w) :
    parseField w sep (sep :: (padDigits w n ++ r)) = some (n, r) := by
  simp only [parseField, expectChar, if_pos rfl, Option.bind_some, bind, Option.bind]
  exact parseDigits_padDigits w n h r

theorem parseYMD_print (y : Int) (m d : Nat) (rest : List Char)
    (hy : y.natAbs ≤ 999999) (hm : m ≤ 99) (hd : d ≤ 99) :
    parseYMD (yearChars y ++ ('-' :: (padDigits 2 m ++ ('-' :: (padDigits 2 d ++ rest)))))
      = some (y, m, d, rest) := by
  simp only [parseYMD, bind, Option.bind, parseYear_yearChars y hy,
    parseField_pad 2 m '-' _ (by omega), parseField_pad 2 d '-' _ (by omega)]

theorem parseHMS_print (hh mm ss ms : Nat)
    (h1 : hh ≤ 99) (h2 : mm ≤ 99) (h3 : ss ≤ 99) (h4 : ms ≤ 999) :
    parseHMS ('T' :: (padDigits 2 hh ++ (':' :: (padDigits 2 mm ++
        (':' :: (padDigits 2 ss ++ ('.' :: (padDigits 3 ms ++ ['Z']))))))))
      = some (hh, mm, ss, ms, []) := by
  simp only [parseHMS, bind, Option.bind, parseField_pad 2 hh 'T' _ (by omega),
    parseField_pad 2 mm ':' _ (by omega), parseField_pad 2 ss ':' _ (by omega),
    parseField_pad 3 ms '.' _ (by omega), expectChar, if_pos rfl]
  rfl

theorem iso_roundtrip (t : Int) (h : t.natAbs ≤ 8640000000000000) :
    parseIso (toIso t) = some t := by
  have hq0 : 0 ≤ t % 86400000 := Int.emod_nonneg _ (by norm_num)
  have hq1 : t % 86400000 < 86400000 := Int.emod_lt_of_pos _ (by norm_num)
  have hznat : (t / 86400000).natAbs ≤ 100000000 := by omega
  obtain ⟨hm1, hm12, hd1, hd31⟩ := civil_month_day_bounds (t / 86400000)
  have hy : ((civilFromDays (t / 86400000)).1).natAbs ≤ 999999 :=
    le_trans (civil_year_bounds _ hznat) (by norm_num)
  have hciv := civil_roundtrip (t / 86400000)
  show parseIsoChars (isoChars t) = some t
  unfold parseIsoChars isoChars
  rw [parseYMD_print (civilFromDays (t / 86400000)).1
    ((civilFromDays (t / 86400000)).2.1).toNat ((civilFromDays (t / 86400000)).2.2).toNat
    _ hy (by omega) (by omega)]
  simp only [bind, Option.bind]
  rw [parseHMS_print ((t % 86400000).toNat / 3600000) ((t % 86400000).toNat % 3600000 / 60000)
    ((t % 86400000).toNat % 60000 / 1000) ((t % 86400000).toNat % 1000)
    (by omega) (by omega) (by omega) (by omega)]
  simp only [bind, Option.bind]
  rw [if_pos ⟨trivial, by omega, by omega, by omega, by omega, by omega, by omega, by omega⟩]
  rw [Int.toNat_of_nonneg (by omega : (0 : Int) ≤ (civilFromDays (t / 86400000)).2.1),
      Int.toNat_of_nonneg (by omega : (0 : Int) ≤ (civilFromDays (t / 86400000)).2.2)]
  rw [hciv]
  rw [show t / 86400000 * 86400000 +
      (((t % 86400000).toNat / 3600000 : Nat) : Int) * 3600000 +
      (((t % 86400000).toNat % 3600000 / 60000 : Nat) : Int) * 60000 +
      (((t % 86400000).toNat % 60000 / 1000 : Nat) : Int) * 1000 +
      (((t % 86400000).toNat % 1000 : Nat) : Int) = t from by omega]
  rw [if_pos h]

/-! ## List splice lemmas -/

theorem jsSpliceInsert_perm (arr : List α) (e : Int) (x : α) :
    (jsSpliceInsert arr e x).Perm (x :: arr) := by
  unfold jsSpliceInsert
  refine List.Perm.trans List.perm_middle ?_
  rw [List.take_append_drop]

theorem jsSpliceInsert_length (arr : List α) (e : Int) (x : α) :
    (jsSpliceInsert arr e x).length = arr.length + 1 := by
  simpa using (jsSpliceInsert_perm arr e x).length_eq

theorem filterMap_id_map_some (l : List α) : (l.map some).filterMap id = l := by
  induction l with
  | nil => rfl
  | cons a l ih => simp [ih]

theorem filterMap_id_cons_none (xs : List (Option α)) :
    (none :: xs).filterMap id = xs.filterMap id := by simp

theorem reorder_filterMap_perm (l : List Todo) (s e : Int) :
    ((reorderTodos l s e).filterMap id).Perm l := by
  simp only [reorderTodos, jsSpliceRemoveOne]
  set arr := l.map some with harr
  set k : Nat := (if s < 0 then max ((arr.length : Int) + s) 0 else min s (arr.length : Int)).toNat
    with hk
  have hperm := (jsSpliceInsert_perm (arr.take k ++ arr.drop (k + 1)) e
    (((arr.drop k).head?).getD none)).filterMap id
  refine hperm.trans ?_
  rcases Nat.lt_or_ge k arr.length with hlt | hge
  · have hkl : k < l.length := by simpa [harr] using hlt
    have hdrop2 : arr.drop k = (l.drop k).map some := by rw [harr, List.map_drop]
    have hldrop : l.drop k = l[k] :: l.drop (k + 1) := List.drop_eq_getElem_cons hkl
    have hx : ((arr.drop k).head?).getD none = some l[k] := by
      rw [hdrop2, hldrop]
      rfl
    have harr1 : arr.take k ++ arr.drop (k + 1)
        = ((l.take k).map some) ++ ((l.drop (k + 1)).map some) := by
      simp [harr, List.map_take, List.map_drop]
    rw [hx, harr1]
    rw [show List.filterMap id
          (some l[k] :: ((l.take k).map some ++ (l.drop (k + 1)).map some))
        = l[k] :: List.filterMap id ((l.take k).map some ++ (l.drop (k + 1)).map some)
      from by simp]
    rw [List.filterMap_append, filterMap_id_map_some, filterMap_id_map_some]
    refine List.Perm.trans List.perm_middle.symm ?_
    rw [show l.take k ++ l[k] :: l.drop (k + 1) = l from by
      rw [← List.drop_eq_getElem_cons hkl, List.take_append_drop]]
  · have htake : arr.take k = arr := List.take_of_length_le hge
    have hdrop1 : arr.drop (k + 1) = [] := List.drop_eq_nil_of_le (by omega)
    have hdrop : arr.drop k = [] := List.drop_eq_nil_of_le hge
    rw [htake, hdrop, hdrop1, List.append_nil]
    rw [show (([] : List (Option Todo)).head?.getD none) = none from rfl]
    rw [show List.filterMap id (none :: arr) = List.filterMap id arr from by simp]
    rw [harr, filterMap_id_map_some]

theorem reorder_from_out_of_range (l : List Todo) (s e : Int) (h : (l.length : Int) ≤ s) :
    (reorderTodos l s e).filterMap id = l ∧
    (reorderTodos l s e).length = l.length + 1 := by
  simp only [reorderTodos, jsSpliceRemoveOne]
  set arr := l.map some with harr
  set k : Nat := (if s < 0 then max ((arr.length : Int) + s) 0 else min s (arr.length : Int)).toNat
    with hk
  have hge : arr.length ≤ k := by
    have hlen : arr.length = l.length := by simp [harr]
    have hs : ¬ (s < 0) := by omega
    rw [hk]
    simp only [if_neg hs]
    omega
  have htake : arr.take k = arr := List.take_of_length_le hge
  have hdrop1 : arr.drop (k + 1) = [] := List.drop_eq_nil_of_le (by omega)
  have hdrop : arr.drop k = [] := List.drop_eq_nil_of_le hge
  rw [htake, hdrop, hdrop1, List.append_nil]
  rw [show (([] : List (Option Todo)).head?.getD none) = none from rfl]
  constructor
  · unfold jsSpliceInsert
    rw [List.filterMap_append, filterMap_id_cons_none, ← List.filterMap_append,
      List.take_append_drop, harr, filterMap_id_map_some]
  · rw [jsSpliceInsert_length]
    simp [harr]

/-! ## Claim C9 -/

/-- Claim C9: `toggle(id)` is an involution — applying it twice restores every
record's `completed` flag — and a `toggle` with an id matching no record
leaves the collection unchanged. -/
theorem toggleTodo_involution_and_unknown_id_noop (l : List Todo) (i : String) :
    toggleTodo i (toggleTodo i l) = l ∧
    ((∀ t ∈ l, t.id ≠ i) → toggleTodo i l = l) := by
  constructor
  · unfold toggleTodo
    rw [List.map_map]
    have hcomp : ∀ t : Todo,
        ((fun todo => if todo.id == i then { todo with completed := !todo.completed } else todo) ∘
         (fun todo => if todo.id == i then { todo with completed := !todo.completed } else todo)) t
          = t := by
      intro t
      rcases t with ⟨tid, ttext, tc, tca, tdd, tcat⟩
      by_cases h : tid = i
      · simp [Function.comp, h, Bool.not_not]
      · simp [Function.comp, h]
    calc l.map _ = l.map id := List.map_congr_left fun t _ => hcomp t
      _ = l := List.map_id l
  · induction l with
    | nil => intro _; rfl
    | cons t rest ih =>
      intro h
      have h1 : t.id ≠ i := h t (by simp)
      have h2 : ∀ x ∈ rest, x.id ≠ i := fun x hx => h x (by simp [hx])
      have hrest := ih h2
      unfold toggleTodo at hrest ⊢
      simp only [List.map_cons, beq_iff_eq, if_neg h1]
      simp only [beq_iff_eq] at hrest
      rw [hrest]

/-- Witness for C9 at a concrete collection and an unknown id. -/
theorem toggleTodo_involution_witness :
    toggleTodo "zz" (toggleTodo "zz" [sampleTodo]) = [sampleTodo] ∧
    toggleTodo "zz" [sampleTodo] = [sampleTodo] :=
  ⟨(toggleTodo_involution_and_unknown_id_noop [sampleTodo] "zz").1,
   (toggleTodo_involution_and_unknown_id_noop [sampleTodo] "zz").2 (by decide)⟩

/-! ## Claim C10 -/

/-- Claim C10: `delete(id)` returns exactly the records whose id differs,
preserving relative order (a sublist); duplicates of the id are all removed
in one call; the multiplicity of unaffected records is untouched; a
collection with no matching record is unchanged. -/
theorem deleteTodo_filters_by_id (l : List Todo) (i : String) :
    (deleteTodo i l).Sublist l ∧
    (∀ t : Todo, t ∈ deleteTodo i l ↔ t ∈ l ∧ t.id ≠ i) ∧
    (∀ t : Todo, t.id ≠ i → (deleteTodo i l).count t = l.count t) ∧
    ((∀ t ∈ l, t.id ≠ i) → deleteTodo i l = l) := by
  refine ⟨List.filter_sublist _, ?_, ?_, ?_⟩
  · intro t
    simp [deleteTodo, List.mem_filter, bne_iff_ne]
  · intro t ht
    rw [deleteTodo, List.count_filter]
    simp [bne_iff_ne, ht]
  · intro h
    rw [deleteTodo, List.filter_eq_self.mpr]
    intro a ha
    exact bne_iff_ne.mpr (h a ha)

/-- Witness for C10 at a concrete collection and a non-matching id. -/
theorem deleteTodo_filters_witness :
    (deleteTodo "zz" [sampleTodo]).count sampleTodo = ([sampleTodo].count sampleTodo) ∧
    deleteTodo "zz" [sampleTodo] = [sampleTodo] :=
  ⟨(deleteTodo_filters_by_id [sampleTodo] "zz").2.2.1 sampleTodo (by decide),
   (deleteTodo_filters_by_id [sampleTodo] "zz").2.2.2 (by decide)⟩

/-! ## Claim C8 -/

/-- Claim C8: after `add` with non-empty trimmed text, the new record sits at
index 0 with `completed = false` and the externally generated id, and every
pre-existing record is unchanged, shifted by one position. -/
theorem addTodo_prepends_and_preserves (id : String) (now : Int) (text : String)
    (dueDate : Option Int) (category : Option String) (prev : List Todo)
    (h : jsTrim text ≠ "") :
    (addTodo id now text dueDate category prev).length = prev.length + 1 ∧
    (addTodo id now text dueDate category prev).head? =
      some { id := id, text := text, completed := false, createdAt := now,
             dueDate := dueDate, category := category } ∧
    ∀ i : Nat, (addTodo id now text dueDate category prev)[i + 1]? = prev[i]? := by
  refine ⟨by simp [addTodo], rfl, fun i => ?_⟩
  simp [addTodo]

/-- Witness for C8 at a concrete input. -/
theorem addTodo_prepends_witness :
    (addTodo "b2" 5 "water plants" none (some "home") [sampleTodo]).length = 2 ∧
    (addTodo "b2" 5 "water plants" none (some "home") [sampleTodo]).head? =
      some { id := "b2", text := "water plants", completed := false, createdAt := 5,
             dueDate := none, category := some "home" } ∧
    ∀ i : Nat,
      (addTodo "b2" 5 "water plants" none (some "home") [sampleTodo])[i + 1]?
        = [sampleTodo][i]? :=
  addTodo_prepends_and_preserves "b2" 5 "water plants" none (some "home") [sampleTodo]
    (by decide)

/-! ## Claim C1 -/

/-- Counterexample to C1: the store's `add` does not reject empty text — with
trimmed-empty text `""` it still creates a record, so the collection is not
left unchanged. -/
theorem addTodo_empty_text_creates_record :
    jsTrim "" = "" ∧
    addTodo "id1" 0 "" none none [] =
      [{ id := "id1", text := "", completed := false, createdAt := 0,
         dueDate := none, category := none }] :=
  ⟨rfl, rfl⟩

/-- Amended C1: the store's `add` inserts unconditionally — also for
trimmed-empty text — and the empty-text rejection lives in the input form:
`TodoInput.handleSubmit` never calls `onAdd` when the trimmed text is
empty. -/
theorem add_empty_text_guard_in_input_form (id : String) (now : Int) (text : String)
    (dueDate : Option Int) (category : Option String) (prev : List Todo)
    (off : Int) (dueStr catStr : String) (h : jsTrim text = "") :
    (addTodo id now text dueDate category prev).length = prev.length + 1 ∧
    handleSubmit off text dueStr catStr = none := by
  constructor
  · simp [addTodo]
  · simp [handleSubmit, h]

/-- Witness for the amended C1 at the concrete whitespace text. -/
theorem add_empty_text_guard_witness :
    (addTodo "id2" 0 "   " none none []).length = 1 ∧
    handleSubmit 0 "   " "" "" = none :=
  add_empty_text_guard_in_input_form "id2" 0 "   " none none [] 0 "" "" (by decide)

/-! ## Claim C3 -/

/-- Counterexample to C3: `reorder` with an out-of-range `fromIndex` is not a
no-op — on a one-element collection, `reorder(1, 0)` inserts an `undefined`
entry at the front. -/
theorem reorder_out_of_range_not_noop :
    reorderTodos [sampleTodo] 1 0 ≠ [sampleTodo].map some := by decide

/-- Amended C3: `reorder` with out-of-range indices never throws (it is a
total function), and never loses or corrupts a record: the records in the
result are a permutation of the originals; when `fromIndex ≥ length` they are
exactly the originals in order — but the operation is not a no-op, because an
`undefined` entry is inserted at the clamped `toIndex`. -/
theorem reorder_out_of_range_preserves_records (l : List Todo) (s e : Int)
    (h : ¬ (0 ≤ s ∧ s < (l.length : Int) ∧ 0 ≤ e ∧ e < (l.length : Int))) :
    ((reorderTodos l s e).filterMap id).Perm l ∧
    ((l.length : Int) ≤ s →
      (reorderTodos l s e).filterMap id = l ∧
      (reorderTodos l s e).length = l.length + 1) :=
  ⟨reorder_filterMap_perm l s e, fun hs => reorder_from_out_of_range l s e hs⟩

/-- Witness for the amended C3 at a concrete out-of-range call. -/
theorem reorder_out_of_range_witness :
    ((reorderTodos [sampleTodo] 2 0).filterMap id).Perm [sampleTodo] ∧
    ((([sampleTodo] : List Todo).length : Int) ≤ 2 →
      (reorderTodos [sampleTodo] 2 0).filterMap id = [sampleTodo] ∧
      (reorderTodos [sampleTodo] 2 0).length = [sampleTodo].length + 1) :=
  reorder_out_of_range_preserves_records [sampleTodo] 2 0 (by decide)

/-! ## Claim C5 -/

/-- Claim C5: `format` picks exactly one of three tiers, most significant
first, on each side of the overdue flag (the non-overdue day tier carries the
hour component, as fixed by the claim's own example), and the two concrete
examples of the specification hold. -/
theorem format_three_tier_spec (tr : TimeRemaining) :
    (tr.isOverdue = true →
      (0 < tr.days → formatTimeRemaining tr = toString tr.days ++ "d overdue") ∧
      (tr.days = 0 → 0 < tr.hours →
        formatTimeRemaining tr
          = toString tr.hours ++ "h " ++ toString tr.minutes ++ "m overdue") ∧
      (tr.days = 0 → tr.hours = 0 →
        formatTimeRemaining tr = toString tr.minutes ++ "m overdue")) ∧
    (tr.isOverdue = false →
      (0 < tr.days → formatTimeRemaining tr
          = toString tr.days ++ "d " ++ toString tr.hours ++ "h remaining") ∧
      (tr.days = 0 → 0 < tr.hours →
        formatTimeRemaining tr
          = toString tr.hours ++ "h " ++ toString tr.minutes ++ "m remaining") ∧
      (tr.days = 0 → tr.hours = 0 →
        formatTimeRemaining tr = toString tr.minutes ++ "m remaining")) ∧
    formatTimeRemaining
      { days := 2, hours := 5, minutes := 30, isOverdue := false, totalMinutes := 2870 }
        = "2d 5h remaining" ∧
    formatTimeRemaining
      { days := 0, hours := 0, minutes := 45, isOverdue := true, totalMinutes := 45 }
        = "45m overdue" := by
  refine ⟨fun hov => ⟨?_, ?_, ?_⟩, fun hov => ⟨?_, ?_, ?_⟩, by decide, by decide⟩
  · intro hd
    simp [formatTimeRemaining, hov, hd]
  · intro hd hh
    simp [formatTimeRemaining, hov, hd, hh]
  · intro hd hh
    simp [formatTimeRemaining, hov, hd, hh]
  · intro hd
    simp [formatTimeRemaining, hov, hd]
  · intro hd hh
    simp [formatTimeRemaining, hov, hd, hh]
  · intro hd hh
    simp [formatTimeRemaining, hov, hd, hh]

/-- Witness for C5: the tiers applied at concrete values. -/
theorem format_three_tier_witness :
    formatTimeRemaining
      { days := 0, hours := 2, minutes := 15, isOverdue := true, totalMinutes := 135 }
        = toString (2 : Nat) ++ "h " ++ toString (15 : Nat) ++ "m overdue" :=
  ((format_three_tier_spec
      { days := 0, hours := 2, minutes := 15, isOverdue := true, totalMinutes := 135 }).1
    rfl).2.1 rfl (by decide)

/-! ## Claim C7 -/

/-- Claim C7: the remaining computation uses the 23:59:59.999 end of the due
date's local calendar day as the effective deadline, `isOverdue` is exactly
`deadline - now < 0`, and the magnitudes are the floor decompositions of the
absolute difference in minutes. -/
theorem calculate_time_remaining_spec (off dueDate now : Int) :
    (setHoursEndOfDay off dueDate + off
        = 86400000 * ((dueDate + off) / 86400000) + 86399999) ∧
    (calculateTimeRemaining off dueDate now).isOverdue
        = decide (setHoursEndOfDay off dueDate - now < 0) ∧
    (calculateTimeRemaining off dueDate now).totalMinutes
        = (setHoursEndOfDay off dueDate - now).natAbs / 60000 ∧
    (calculateTimeRemaining off dueDate now).days
        = (calculateTimeRemaining off dueDate now).totalMinutes / 1440 ∧
    (calculateTimeRemaining off dueDate now).hours
        = (calculateTimeRemaining off dueDate now).totalMinutes % 1440 / 60 ∧
    (calculateTimeRemaining off dueDate now).minutes
        = (calculateTimeRemaining off dueDate now).totalMinutes % 60 := by
  refine ⟨?_, rfl, by norm_num [calculateTimeRemaining], by norm_num [calculateTimeRemaining],
    by norm_num [calculateTimeRemaining], rfl⟩
  simp only [setHoursEndOfDay]
  omega

/-! ## Persistence lemmas (claims C2, C4, C6) -/

theorem isoChars_ne_nil (t : Int) : isoChars t ≠ [] := by
  simp [isoChars, List.append_eq_nil]

theorem toIso_ne_empty (t : Int) : toIso t ≠ "" := by
  intro hcontra
  have h2 := congrArg String.data hcontra
  exact isoChars_ne_nil t h2

theorem mapStoredTodo_serialize (t : Todo)
    (h1 : t.createdAt.natAbs ≤ 8640000000000000)
    (h2 : ∀ d ∈ t.dueDate, d.natAbs ≤ 8640000000000000) :
    mapStoredTodo (serializeTodo t) = .ok (loadedOfTodo t) := by
  have hca : dateToJson t.createdAt = .str (toIso t.createdAt) := by
    rw [dateToJson, if_pos h1]
  rcases hdd : t.dueDate with _ | d <;> rcases hcat : t.category with _ | c
  · simp [serializeTodo, hdd, hcat, hca, mapStoredTodo, jsGet, List.lookup, jsSpread,
      jsNewDate, jsTruthy, loadedOfTodo, bind, Except.bind, iso_roundtrip t.createdAt h1]
  · simp [serializeTodo, hdd, hcat, hca, mapStoredTodo, jsGet, List.lookup, jsSpread,
      jsNewDate, jsTruthy, loadedOfTodo, bind, Except.bind, iso_roundtrip t.createdAt h1]
  · have hdv : dateToJson d = .str (toIso d) := by
      rw [dateToJson, if_pos (h2 d (by rw [hdd]; rfl))]
    have hne : (toIso d != "") = true := bne_iff_ne.mpr (toIso_ne_empty d)
    simp [serializeTodo, hdd, hcat, hca, hdv, mapStoredTodo, jsGet, List.lookup, jsSpread,
      jsNewDate, jsTruthy, hne, loadedOfTodo, bind, Except.bind,
      iso_roundtrip t.createdAt h1, iso_roundtrip d (h2 d (by rw [hdd]; rfl))]
  · have hdv : dateToJson d = .str (toIso d) := by
      rw [dateToJson, if_pos (h2 d (by rw [hdd]; rfl))]
    have hne : (toIso d != "") = true := bne_iff_ne.mpr (toIso_ne_empty d)
    simp [serializeTodo, hdd, hcat, hca, hdv, mapStoredTodo, jsGet, List.lookup, jsSpread,
      jsNewDate, jsTruthy, hne, loadedOfTodo, bind, Except.bind,
      iso_roundtrip t.createdAt h1, iso_roundtrip d (h2 d (by rw [hdd]; rfl))]

theorem mapStoredTodos_serialize (l : List Todo)
    (h : ∀ t ∈ l, t.createdAt.natAbs ≤ 8640000000000000 ∧
        ∀ d ∈ t.dueDate, d.natAbs ≤ 8640000000000000) :
    mapStoredTodos (l.map serializeTodo) = .ok (l.map loadedOfTodo) := by
  induction l with
  | nil => rfl
  | cons t rest ih =>
    have ht := h t (by simp)
    have hrest := ih fun x hx => h x (by simp [hx])
    simp only [List.map_cons, mapStoredTodos, mapStoredTodo_serialize t ht.1 ht.2, hrest,
      bind, Except.bind]

/-! ## Claim C6 -/

/-- Claim C6: serializing a collection the way the save path does
(`JSON.stringify`, dates as ISO strings) and deserializing it the way the
load path does (`JSON.parse` plus the `new Date` conversion) reconstructs
every record's `createdAt` and `dueDate` as date values with exactly the
original millisecond timestamps.  The hypothesis restricts the timestamps to
the ECMA-262 valid `Date` range, within which every date the application
creates lies. -/
theorem save_load_roundtrip_millisecond (l : List Todo)
    (h : ∀ t ∈ l, t.createdAt.natAbs ≤ 8640000000000000 ∧
        ∀ d ∈ t.dueDate, d.natAbs ≤ 8640000000000000) :
    loadEffect (some (.ok (serializeTodos l)))
      = { todos := l.map loadedOfTodo, updated := true, reported := false } := by
  simp only [loadEffect, serializeTodos]
  rw [mapStoredTodos_serialize l h]

/-- Witness for C6: a concrete record with both `createdAt` and `dueDate`
set survives the round trip with millisecond precision. -/
theorem save_load_roundtrip_witness :
    loadEffect (some (.ok (serializeTodos
        [{ id := "w1", text := "pay rent", completed := true,
           createdAt := 1735732800123, dueDate := some 1767139199999,
           category := some "home" }])))
      = { todos := [loadedOfTodo
            { id := "w1", text := "pay rent", completed := true,
              createdAt := 1735732800123, dueDate := some 1767139199999,
              category := some "home" }],
          updated := true, reported := false } :=
  save_load_roundtrip_millisecond _ (by decide)

/-! ## Claim C2 -/

/-- Claim C2 is violated by the code (a bug relative to the comment "but not
on initial load"): when the storage holds a stored collection, the
load-triggered state update re-runs the save effect after the first-render
guard has already been cleared, writing the just-loaded collection straight
back to the storage boundary.  Only the no-stored-data mount performs no
write. -/
theorem initial_load_write_back :
    runMount (some (.ok storedSampleJson))
      = { todos := [loadedSample], writes := [[loadedSample]], reported := false } ∧
    runMount none = { todos := [], writes := [], reported := false } := by
  constructor
  · rfl
  · rfl

/-! ## Claim C4 -/

/-- Counterexample to C4: a stored array whose element has every field
missing (`[{}]`) is *not* rejected by the load path: it yields a one-record
collection (with `undefined` text and an Invalid-Date `createdAt`) and
nothing is reported to the observability sink. -/
theorem load_missing_fields_not_rejected :
    (loadEffect (some (.ok (.arr [.obj []])))).todos.length = 1 ∧
    (loadEffect (some (.ok (.arr [.obj []])))).reported = false :=
  ⟨rfl, rfl⟩

/-- Amended C4: load fails soft exactly for stored strings that fail to
parse or parse to a non-array value — the error is reported to the sink and
the collection stays empty; field validation is not performed: an array
element that is an object with missing fields is loaded as a record with
`undefined`/Invalid-Date fields. -/
theorem load_fails_soft_on_unparsable :
    (∀ e : JsError, loadEffect (some (.error e))
      = { todos := [], updated := false, reported := true }) ∧
    (∀ v : JsVal, (∀ elems, v ≠ JsVal.arr elems) →
      loadEffect (some (.ok v)) = { todos := [], updated := false, reported := true }) ∧
    loadEffect (some (.ok (.arr [.obj []])))
      = { todos := [{ props := [], createdAt := none, dueDate := none }],
          updated := true, reported := false } := by
  refine ⟨fun e => rfl, ?_, rfl⟩
  intro v hv
  cases v
  case arr elems => exact absurd rfl (hv elems)
  all_goals rfl

/-- Witness for the amended C4 at a parsed non-array value. -/
theorem load_fails_soft_witness :
    loadEffect (some (.ok (JsVal.str "not an array")))
      = { todos := [], updated := false, reported := true } :=
  load_fails_soft_on_unparsable.2.1 (JsVal.str "not an array")
    (fun elems h => JsVal.noConfusion h)
